import Mathlib

/-!
Shallow embedding of `src/juniper_relay/src/lib.rs` (crate `juniper_relay` of
repository `urls`): relay-style cursor pagination.

Modelling choices:
* Rust `i64` / `i32` values are Lean `Int`; where a checked conversion
  (`try_into`) occurs in the source it is modelled by an explicit function
  returning `Except String _` with the numeric range spelled out
  (64-bit platform: `usize` holds `Nat` values below `2 ^ 64`).
* `juniper::FieldError` is modelled by its observable message, a `String`;
  `FieldResult<T>` becomes `Except String T`.
* The node trait `RelayConnectionNode` (a cursor type with `ToString` and
  `FromStr`) is a bundled structure of the three operations the slicing
  code uses; a `FromStr` failure is modelled by the `Except` error carrying
  the parse failure description (which is what `?` turns into the
  `FieldError` message).
* The loader closure `FnOnce(Option<Cursor>, Option<Cursor>, Option<i64>)
  -> FieldResult<Vec<N>>` becomes a Lean function; statements about the
  loader never being invoked, or being consulted at exactly one argument
  triple, are phrased as the result being independent of the loader
  (respectively depending only on the loader value at that triple).
-/

namespace JuniperRelay

/-- The capability bundle of the Rust trait `RelayConnectionNode`:
a cursor per node, plus the cursor type rendering (`ToString`) and
parsing (`FromStr`, with a displayable error). -/
structure RelayConnectionNode (Node : Type) (Cursor : Type) where
  cursor : Node → Cursor
  cursorToString : Cursor → String
  cursorFromStr : String → Except String Cursor

/-- `RelayConnectionEdge<N>`: a node together with its rendered cursor. -/
structure RelayConnectionEdge (Node : Type) where
  node : Node
  cursor : String
  deriving DecidableEq, Repr

/-- `RelayConnectionPageInfo` (GraphQL name `PageInfo`). -/
structure RelayConnectionPageInfo where
  has_previous_page : Bool
  has_next_page : Bool
  start_cursor : Option String
  end_cursor : Option String
  deriving DecidableEq, Repr

/-- `RelayConnection<N>`: edges plus page info. -/
structure RelayConnection (Node : Type) where
  edges : List (RelayConnectionEdge Node)
  page_info : RelayConnectionPageInfo
  deriving DecidableEq, Repr

/-- `fn leq_zero(val: i64) -> Result<i64, &'static str>` from the source. -/
def leq_zero (val : Int) : Except String Int :=
  if val < 0 then Except.error "Pagination argument must be positive"
  else Except.ok val

/-- `Option::map(..).transpose()` on a fallible map, as used by the source
for cursor parsing and argument validation. -/
def optTranspose {E A : Type} : Option (Except E A) → Except E (Option A)
  | none => Except.ok none
  | some (Except.error e) => Except.error e
  | some (Except.ok a) => Except.ok (some a)

/-- Message displayed by Rust `TryFromIntError`. -/
def tryFromIntErrorMsg : String := "out of range integral type conversion attempted"

/-- `edges.len().try_into()?` — checked conversion `usize → i64`
(fails when the length does not fit in an `i64`). -/
def usize_to_i64 (n : Nat) : Except String Int :=
  if n < 2 ^ 63 then Except.ok (n : Int) else Except.error tryFromIntErrorMsg

/-- `first.try_into()?` / `skip.try_into()?` — checked conversion
`i64 → usize` (fails on negative values; the upper bound is spelled out
even though an `i64` can never exceed it). -/
def i64_to_usize (v : Int) : Except String Nat :=
  if 0 ≤ v ∧ v < 2 ^ 64 then Except.ok v.toNat else Except.error tryFromIntErrorMsg

/-- `RelayConnection::new` from the source, line by line: parse `after` and
`before`, validate `first` and `last` non-negative, call the loader with the
decoded cursors and the limit hint `first + 1`, convert the candidate length
to `i64`, compute the page flags, take/skip window the candidate sequence,
and assemble edges and page info. -/
def RelayConnection.new {Node Cursor : Type}
    (inst : RelayConnectionNode Node Cursor)
    (first : Option Int) (after : Option String)
    (last : Option Int) (before : Option String)
    (load : Option Cursor → Option Cursor → Option Int → Except String (List Node)) :
    Except String (RelayConnection Node) := do
  let afterC ← optTranspose (after.map inst.cursorFromStr)
  let beforeC ← optTranspose (before.map inst.cursorFromStr)
  let first ← optTranspose (first.map leq_zero)
  let last ← optTranspose (last.map leq_zero)
  let limit := first.map (fun l => l + 1)
  let edges ← load afterC beforeC limit
  let edges_len ← usize_to_i64 edges.length
  let has_previous_page : Bool :=
    match last with
    | some last => decide (edges_len > last)
    | none => false
  let has_next_page : Bool :=
    match first with
    | some first => decide (edges_len > first)
    | none => false
  let first := first.getD edges_len
  let last := last.getD edges_len
  let len_after_take := min edges_len first
  let skip := max 0 (len_after_take - last)
  let takeN ← i64_to_usize first
  let skipN ← i64_to_usize skip
  let edges : List (RelayConnectionEdge Node) :=
    ((edges.take takeN).drop skipN).map
      (fun node => RelayConnectionEdge.mk node (inst.cursorToString (inst.cursor node)))
  pure (RelayConnection.mk edges
    (RelayConnectionPageInfo.mk has_previous_page has_next_page
      (edges.head?.map RelayConnectionEdge.cursor)
      (edges.getLast?.map RelayConnectionEdge.cursor)))

/-- `RelayConnection::empty` from the source. -/
def RelayConnection.empty {Node : Type} : RelayConnection Node :=
  RelayConnection.mk []
    (RelayConnectionPageInfo.mk false false none none)

/-- The connection value `RelayConnection::new` assembles once parsing,
validation, the loader call and the length conversion have all succeeded on
a candidate sequence `items` (closed form of the tail of `new`). -/
def buildConn {Node Cursor : Type} (inst : RelayConnectionNode Node Cursor)
    (first last : Option Int) (items : List Node) : RelayConnection Node :=
  let n : Int := items.length
  let hp : Bool := match last with
    | some l => decide (n > l)
    | none => false
  let hn : Bool := match first with
    | some f => decide (n > f)
    | none => false
  let f := first.getD n
  let l := last.getD n
  let skip := max 0 (min n f - l)
  let edges := ((items.take f.toNat).drop skip.toNat).map
    (fun node => RelayConnectionEdge.mk node (inst.cursorToString (inst.cursor node)))
  RelayConnection.mk edges
    (RelayConnectionPageInfo.mk hp hn
      (edges.head?.map RelayConnectionEdge.cursor)
      (edges.getLast?.map RelayConnectionEdge.cursor))

/-- A concrete node instance used for closed-form witnesses: nodes are
integers serving as their own cursors, rendered by `toString`; the parser
accepts exactly the string `"0"` (decoding it to cursor `0`) and reports
every other string as an invalid cursor. -/
def intInst : RelayConnectionNode Int Int :=
  RelayConnectionNode.mk (fun n => n) (fun c => toString c)
    (fun s => if s = "0" then Except.ok 0
      else Except.error ("invalid cursor: " ++ s))

/-! ### Basic lemmas on the validation and conversion steps -/

lemma leq_zero_ok {v : Int} (h : 0 ≤ v) : leq_zero v = Except.ok v := by
  rw [leq_zero, if_neg (by omega)]

lemma transpose_leq_zero_ok {o : Option Int} (h : ∀ x ∈ o, 0 ≤ x) :
    optTranspose (o.map leq_zero) = Except.ok o := by
  cases o with
  | none => rfl
  | some v =>
    show optTranspose (some (leq_zero v)) = Except.ok (some v)
    rw [leq_zero_ok (h v rfl)]
    rfl

lemma transpose_leq_zero_err {o : Option Int} (h : ∃ x ∈ o, x < 0) :
    optTranspose (o.map leq_zero) = Except.error "Pagination argument must be positive" := by
  obtain ⟨x, hx, hneg⟩ := h
  cases o with
  | none => cases hx
  | some v =>
    cases hx
    show optTranspose (some (leq_zero x)) = _
    rw [leq_zero, if_pos hneg]
    rfl

lemma transpose_leq_zero_inv {o r : Option Int}
    (h : optTranspose (o.map leq_zero) = Except.ok r) :
    r = o ∧ ∀ x ∈ o, 0 ≤ x := by
  cases o with
  | none =>
    cases h
    exact ⟨rfl, by intro x hx; cases hx⟩
  | some v =>
    rw [show Option.map leq_zero (some v) = some (leq_zero v) from rfl, leq_zero] at h
    by_cases hv : v < 0
    · rw [if_pos hv] at h
      cases h
    · rw [if_neg hv] at h
      cases h
      exact ⟨rfl, by intro x hx; cases hx; omega⟩

lemma usize_to_i64_ok {n : Nat} (h : n < 2 ^ 63) :
    usize_to_i64 n = Except.ok (n : Int) := by
  rw [usize_to_i64, if_pos h]

lemma usize_to_i64_inv {n : Nat} {v : Int} (h : usize_to_i64 n = Except.ok v) :
    v = (n : Int) ∧ n < 2 ^ 63 := by
  by_cases hn : n < 2 ^ 63
  · rw [usize_to_i64, if_pos hn] at h
    cases h
    exact ⟨rfl, hn⟩
  · rw [usize_to_i64, if_neg hn] at h
    cases h

lemma i64_to_usize_ok {v : Int} (h0 : 0 ≤ v) (h1 : v < 2 ^ 64) :
    i64_to_usize v = Except.ok v.toNat := by
  rw [i64_to_usize, if_pos ⟨h0, h1⟩]

lemma i64_to_usize_inv {v : Int} {t : Nat} (h : i64_to_usize v = Except.ok t) :
    t = v.toNat ∧ 0 ≤ v ∧ v < 2 ^ 64 := by
  by_cases hv : 0 ≤ v ∧ v < 2 ^ 64
  · rw [i64_to_usize, if_pos hv] at h
    cases h
    exact ⟨rfl, hv⟩
  · rw [i64_to_usize, if_neg hv] at h
    cases h

/-! ### Evaluation and inversion of `RelayConnection.new` -/

/-- Forward evaluation: when cursor parsing, validation, the loader call and
the length conversion all succeed, `new` returns `.ok (buildConn ...)`. -/
lemma new_eval {Node Cursor : Type} (inst : RelayConnectionNode Node Cursor)
    (first last : Option Int) (after before : Option String)
    (aC bC : Option Cursor)
    (load : Option Cursor → Option Cursor → Option Int → Except String (List Node))
    (items : List Node)
    (hA : optTranspose (after.map inst.cursorFromStr) = Except.ok aC)
    (hB : optTranspose (before.map inst.cursorFromStr) = Except.ok bC)
    (hf : ∀ f ∈ first, 0 ≤ f ∧ f < 2 ^ 64)
    (hl : ∀ l ∈ last, 0 ≤ l)
    (hload : load aC bC (first.map (fun l => l + 1)) = Except.ok items)
    (hN : items.length < 2 ^ 63) :
    RelayConnection.new inst first after last before load =
      Except.ok (buildConn inst first last items) := by
  have hF : optTranspose (first.map leq_zero) = Except.ok first :=
    transpose_leq_zero_ok (fun f hf0 => (hf f hf0).1)
  have hL : optTranspose (last.map leq_zero) = Except.ok last :=
    transpose_leq_zero_ok hl
  have hN' : usize_to_i64 items.length = Except.ok (items.length : Int) :=
    usize_to_i64_ok hN
  have ht0 : 0 ≤ first.getD (items.length : Int) := by
    cases first with
    | none => rw [Option.getD_none]; omega
    | some f => rw [Option.getD_some]; exact (hf f rfl).1
  have ht1 : first.getD (items.length : Int) < 2 ^ 64 := by
    cases first with
    | none => rw [Option.getD_none]; omega
    | some f => rw [Option.getD_some]; exact (hf f rfl).2
  have hT : i64_to_usize (first.getD (items.length : Int)) =
      Except.ok (first.getD (items.length : Int)).toNat :=
    i64_to_usize_ok ht0 ht1
  have hs1 : max 0 (min (items.length : Int) (first.getD (items.length : Int)) -
      last.getD (items.length : Int)) < 2 ^ 64 := by
    cases last with
    | none => rw [Option.getD_none]; omega
    | some l => rw [Option.getD_some]; have := hl l rfl; omega
  have hS : i64_to_usize (max 0 (min (items.length : Int) (first.getD (items.length : Int)) -
        last.getD (items.length : Int))) =
      Except.ok (max 0 (min (items.length : Int) (first.getD (items.length : Int)) -
        last.getD (items.length : Int))).toNat :=
    i64_to_usize_ok (le_max_left 0 _) hs1
  simp only [RelayConnection.new, buildConn, bind, Except.bind, hA, hB, hF, hL, hload,
    hN', hT, hS, pure, Except.pure]

/-- Inversion: a successful `new` result records that parsing and validation
succeeded, the loader returned a candidate sequence whose length fits an
`i64`, and the connection is the assembled `buildConn` value. -/
lemma new_ok_inv {Node Cursor : Type} {inst : RelayConnectionNode Node Cursor}
    {first last : Option Int} {after before : Option String}
    {load : Option Cursor → Option Cursor → Option Int → Except String (List Node)}
    {conn : RelayConnection Node}
    (h : RelayConnection.new inst first after last before load = Except.ok conn) :
    ∃ aC bC items,
      optTranspose (after.map inst.cursorFromStr) = Except.ok aC ∧
      optTranspose (before.map inst.cursorFromStr) = Except.ok bC ∧
      (∀ f ∈ first, 0 ≤ f) ∧ (∀ l ∈ last, 0 ≤ l) ∧
      load aC bC (first.map (fun l => l + 1)) = Except.ok items ∧
      items.length < 2 ^ 63 ∧
      conn = buildConn inst first last items := by
  rw [RelayConnection.new] at h
  simp only [bind, Except.bind] at h
  cases hA : optTranspose (after.map inst.cursorFromStr) with
  | error e => rw [hA] at h; cases h
  | ok aC =>
  simp only [hA] at h
  cases hB : optTranspose (before.map inst.cursorFromStr) with
  | error e => rw [hB] at h; cases h
  | ok bC =>
  simp only [hB] at h
  cases hF : optTranspose (first.map leq_zero) with
  | error e => rw [hF] at h; cases h
  | ok fv =>
  simp only [hF] at h
  obtain ⟨hfv, hf⟩ := transpose_leq_zero_inv hF
  rw [hfv] at h
  cases hL : optTranspose (last.map leq_zero) with
  | error e => rw [hL] at h; cases h
  | ok lv =>
  simp only [hL] at h
  obtain ⟨hlv, hl⟩ := transpose_leq_zero_inv hL
  rw [hlv] at h
  cases hld : load aC bC (first.map (fun l => l + 1)) with
  | error e => rw [hld] at h; cases h
  | ok items =>
  simp only [hld] at h
  cases hN : usize_to_i64 items.length with
  | error e => rw [hN] at h; cases h
  | ok n =>
  simp only [hN] at h
  obtain ⟨hn, hlen⟩ := usize_to_i64_inv hN
  rw [hn] at h
  cases hT : i64_to_usize (first.getD (items.length : Int)) with
  | error e => rw [hT] at h; cases h
  | ok t =>
  simp only [hT] at h
  obtain ⟨ht, -, -⟩ := i64_to_usize_inv hT
  rw [ht] at h
  cases hS : i64_to_usize (max 0 (min (items.length : Int) (first.getD (items.length : Int)) -
      last.getD (items.length : Int))) with
  | error e => rw [hS] at h; cases h
  | ok s =>
  simp only [hS] at h
  obtain ⟨hs, -, -⟩ := i64_to_usize_inv hS
  rw [hs] at h
  simp only [pure, Except.pure, Except.ok.injEq] at h
  subst h
  exact ⟨aC, bC, items, rfl, rfl, hf, hl, hld, hlen, rfl⟩

/-- Early-error lemma: a failed `after` parse makes `new` return that parse
error, whatever the loader is. -/
lemma new_after_err {Node Cursor : Type} (inst : RelayConnectionNode Node Cursor)
    (first last : Option Int) (after before : Option String) (e : String)
    (load : Option Cursor → Option Cursor → Option Int → Except String (List Node))
    (hA : optTranspose (after.map inst.cursorFromStr) = Except.error e) :
    RelayConnection.new inst first after last before load = Except.error e := by
  rw [RelayConnection.new]
  simp only [bind, Except.bind, hA]

/-- Early-error lemma: with `after` parsed, a failed `before` parse makes
`new` return that parse error, whatever the loader is. -/
lemma new_before_err {Node Cursor : Type} (inst : RelayConnectionNode Node Cursor)
    (first last : Option Int) (after before : Option String) (aC : Option Cursor) (e : String)
    (load : Option Cursor → Option Cursor → Option Int → Except String (List Node))
    (hA : optTranspose (after.map inst.cursorFromStr) = Except.ok aC)
    (hB : optTranspose (before.map inst.cursorFromStr) = Except.error e) :
    RelayConnection.new inst first after last before load = Except.error e := by
  rw [RelayConnection.new]
  simp only [bind, Except.bind, hA, hB]

/-- Early-error lemma: with both cursors parsed, a negative `first` or `last`
makes `new` return the validation error, whatever the loader is. -/
lemma new_validation_err {Node Cursor : Type} (inst : RelayConnectionNode Node Cursor)
    (first last : Option Int) (after before : Option String) (aC bC : Option Cursor)
    (load : Option Cursor → Option Cursor → Option Int → Except String (List Node))
    (hA : optTranspose (after.map inst.cursorFromStr) = Except.ok aC)
    (hB : optTranspose (before.map inst.cursorFromStr) = Except.ok bC)
    (hneg : (∃ x ∈ first, x < 0) ∨ (∃ x ∈ last, x < 0)) :
    RelayConnection.new inst first after last before load =
      Except.error "Pagination argument must be positive" := by
  rw [RelayConnection.new]
  by_cases hfneg : ∃ x ∈ first, x < 0
  · simp only [bind, Except.bind, hA, hB, transpose_leq_zero_err hfneg]
  · have hfok : ∀ x ∈ first, 0 ≤ x := by
      intro x hx
      by_contra hc
      exact hfneg ⟨x, hx, by omega⟩
    have hlneg : ∃ x ∈ last, x < 0 := hneg.resolve_left hfneg
    simp only [bind, Except.bind, hA, hB, transpose_leq_zero_ok hfok,
      transpose_leq_zero_err hlneg]

/-! ### Window arithmetic -/

lemma map_node_map_mk {Node : Type} (g : Node → String) (xs : List Node) :
    (xs.map (fun node => RelayConnectionEdge.mk node (g node))).map
      RelayConnectionEdge.node = xs := by
  induction xs with
  | nil => rfl
  | cons a l ih => simp [ih]

/-- The code's take/skip window, rewritten with the claim's `Nat` bounds:
take `min N F`, then drop so that at most `L` items remain. -/
lemma window_shift {Node : Type} (items : List Node) (F L : Int) (hF : 0 ≤ F) (hL : 0 ≤ L) :
    (items.take F.toNat).drop (max 0 (min (items.length : Int) F - L)).toNat =
      (items.take (min items.length F.toNat)).drop
        (min items.length F.toNat - L.toNat) := by
  have h1 : items.take F.toNat = items.take (min items.length F.toNat) := by
    rw [List.take_eq_take]
    omega
  rw [h1]
  congr 1
  omega

/-- On a zero-length candidate sequence, the assembled connection is exactly
the empty connection (given the bounds passed validation). -/
lemma buildConn_nil {Node Cursor : Type} (inst : RelayConnectionNode Node Cursor)
    (first last : Option Int)
    (hf : ∀ f ∈ first, 0 ≤ f) (hl : ∀ l ∈ last, 0 ≤ l) :
    buildConn inst first last ([] : List Node) = RelayConnection.empty := by
  cases first with
  | none =>
    cases last with
    | none => rfl
    | some l =>
      have hv := hl l rfl
      simp only [buildConn, RelayConnection.empty, List.take_nil, List.drop_nil,
        List.map_nil, List.length_nil, Nat.cast_zero, List.head?_nil, List.getLast?_nil,
        Option.map_none', RelayConnection.mk.injEq, RelayConnectionPageInfo.mk.injEq,
        decide_eq_false_iff_not, true_and, and_true]
      omega
  | some f =>
    have hfv := hf f rfl
    cases last with
    | none =>
      simp only [buildConn, RelayConnection.empty, List.take_nil, List.drop_nil,
        List.map_nil, List.length_nil, Nat.cast_zero, List.head?_nil, List.getLast?_nil,
        Option.map_none', RelayConnection.mk.injEq, RelayConnectionPageInfo.mk.injEq,
        decide_eq_false_iff_not, true_and, and_true]
      omega
    | some l =>
      have hv := hl l rfl
      simp only [buildConn, RelayConnection.empty, List.take_nil, List.drop_nil,
        List.map_nil, List.length_nil, Nat.cast_zero, List.head?_nil, List.getLast?_nil,
        Option.map_none', RelayConnection.mk.injEq, RelayConnectionPageInfo.mk.injEq,
        decide_eq_false_iff_not, true_and, and_true]
      omega

/-! ### Claim theorems -/

/-- C1: for every candidate sequence of length `N` returned by the loader and
every validated non-negative pair `first = f`, `last = l` (each optional,
defaulting to `N` when absent; `first`/`last` arrive as `i32` values),
`RelayConnection.new` succeeds and produces as edges exactly the items at
indices `[skipCount, takeCount)` of the candidate sequence in their original
order, where `takeCount = min (N, effFirst)` and
`skipCount = max (0, takeCount - effLast)` (`Nat` truncated subtraction);
in particular with both bounds present the window is the trailing
`min (l, min (N, f))` items of the front-`f` slice. -/
theorem new_window_spec {Node Cursor : Type} (inst : RelayConnectionNode Node Cursor)
    (first last : Option Int) (items : List Node)
    (hf : ∀ f ∈ first, 0 ≤ f ∧ f < 2 ^ 31) (hl : ∀ l ∈ last, 0 ≤ l ∧ l < 2 ^ 31)
    (hN : items.length < 2 ^ 63) :
    ∃ conn,
      RelayConnection.new inst first none last none (fun _ _ _ => Except.ok items) =
        Except.ok conn ∧
      conn.edges.map RelayConnectionEdge.node =
        (items.take (min items.length ((first.map Int.toNat).getD items.length))).drop
          (min items.length ((first.map Int.toNat).getD items.length) -
            (last.map Int.toNat).getD items.length) ∧
      (∀ f l, first = some f → last = some l →
        conn.edges.map RelayConnectionEdge.node =
          (items.take f.toNat).drop
            ((items.take f.toNat).length - min l.toNat (min items.length f.toNat))) := by
  have heval := new_eval inst first last none none none none
    (fun _ _ _ => Except.ok items) items rfl rfl
    (fun f hf0 => ⟨(hf f hf0).1, by have := (hf f hf0).2; omega⟩)
    (fun l hl0 => (hl l hl0).1) rfl hN
  have hF0 : 0 ≤ first.getD (items.length : Int) := by
    cases first with
    | none => rw [Option.getD_none]; omega
    | some f => rw [Option.getD_some]; exact (hf f rfl).1
  have hL0 : 0 ≤ last.getD (items.length : Int) := by
    cases last with
    | none => rw [Option.getD_none]; omega
    | some l => rw [Option.getD_some]; exact (hl l rfl).1
  have hFt : (first.getD (items.length : Int)).toNat =
      (first.map Int.toNat).getD items.length := by
    cases first <;> simp
  have hLt : (last.getD (items.length : Int)).toNat =
      (last.map Int.toNat).getD items.length := by
    cases last <;> simp
  refine ⟨buildConn inst first last items, heval, ?_, ?_⟩
  · simp only [buildConn]
    rw [map_node_map_mk, window_shift items _ _ hF0 hL0, hFt, hLt]
  · intro f l hf1 hl1
    subst hf1
    subst hl1
    simp only [buildConn]
    rw [map_node_map_mk]
    have hfv := hf f rfl
    have hlv := hl l rfl
    simp only [Option.getD_some]
    congr 1
    rw [List.length_take]
    omega

/-- C2: for every non-negative `first = f` (an `i32`) and candidate sequence
of length `N` with `last` absent, the edge list is the first `min (N, f)`
items, `hasNextPage` equals `N > f`, and `hasPreviousPage` is false;
and whenever `first` is absent, `hasNextPage` is false for any successful
call. -/
theorem new_first_only_spec {Node Cursor : Type} (inst : RelayConnectionNode Node Cursor)
    (f : Int) (items : List Node)
    (hf : 0 ≤ f ∧ f < 2 ^ 31) (hN : items.length < 2 ^ 63) :
    (∃ conn,
      RelayConnection.new inst (some f) none none none (fun _ _ _ => Except.ok items) =
        Except.ok conn ∧
      conn.edges.map RelayConnectionEdge.node = items.take f.toNat ∧
      conn.edges.length = min items.length f.toNat ∧
      conn.page_info.has_next_page = decide ((items.length : Int) > f) ∧
      conn.page_info.has_previous_page = false) ∧
    (∀ (after before : Option String) (last : Option Int)
        (load : Option Cursor → Option Cursor → Option Int → Except String (List Node))
        (conn : RelayConnection Node),
      RelayConnection.new inst none after last before load = Except.ok conn →
      conn.page_info.has_next_page = false) := by
  constructor
  · have heval := new_eval inst (some f) none none none none none
      (fun _ _ _ => Except.ok items) items rfl rfl
      (fun x hx => by cases hx; exact ⟨hf.1, by omega⟩)
      (fun x hx => by cases hx) rfl hN
    refine ⟨buildConn inst (some f) none items, heval, ?_, ?_, rfl, rfl⟩
    · simp only [buildConn, Option.getD_some, Option.getD_none]
      rw [map_node_map_mk]
      have hdrop : (max 0 (min (items.length : Int) f - (items.length : Int))).toNat = 0 := by
        omega
      rw [hdrop, List.drop_zero]
    · simp only [buildConn, Option.getD_some, Option.getD_none]
      rw [List.length_map, List.length_drop, List.length_take]
      omega
  · intro after before last load conn h
    obtain ⟨aC, bC, items0, -, -, -, -, -, -, hconn⟩ := new_ok_inv h
    subst hconn
    simp [buildConn]

/-- C3: for every non-negative `last = l` (an `i32`) and candidate sequence of
length `N` with `first` absent, the edge list is exactly the trailing
`min (N, l)` items, `hasPreviousPage` equals `N > l`, and `hasNextPage` is
false. -/
theorem new_last_only_spec {Node Cursor : Type} (inst : RelayConnectionNode Node Cursor)
    (l : Int) (items : List Node)
    (hl : 0 ≤ l ∧ l < 2 ^ 31) (hN : items.length < 2 ^ 63) :
    ∃ conn,
      RelayConnection.new inst none none (some l) none (fun _ _ _ => Except.ok items) =
        Except.ok conn ∧
      conn.edges.map RelayConnectionEdge.node =
        items.drop (items.length - min items.length l.toNat) ∧
      conn.edges.length = min items.length l.toNat ∧
      conn.page_info.has_previous_page = decide ((items.length : Int) > l) ∧
      conn.page_info.has_next_page = false := by
  have heval := new_eval inst none (some l) none none none none
    (fun _ _ _ => Except.ok items) items rfl rfl
    (fun x hx => by cases hx)
    (fun x hx => by cases hx; exact hl.1) rfl hN
  refine ⟨buildConn inst none (some l) items, heval, ?_, ?_, rfl, rfl⟩
  · simp only [buildConn, Option.getD_some, Option.getD_none]
    rw [map_node_map_mk]
    have htake : items.take ((items.length : Int)).toNat = items := by
      rw [Int.toNat_natCast, List.take_length]
    rw [htake]
    congr 1
    omega
  · simp only [buildConn, Option.getD_some, Option.getD_none]
    rw [List.length_map, List.length_drop, List.length_take]
    omega

/-- C4: for every successfully built connection (from `new` or from `empty`),
`startCursor`/`endCursor` are `none` iff the edge list is empty and otherwise
equal the first/last edge's cursor string; and when the loader returns zero
items the connection is the all-empty one, regardless of `first`/`last`. -/
theorem conn_cursor_invariants {Node Cursor : Type} (inst : RelayConnectionNode Node Cursor)
    (first last : Option Int) (after before : Option String)
    (load : Option Cursor → Option Cursor → Option Int → Except String (List Node))
    (conn : RelayConnection Node)
    (h : RelayConnection.new inst first after last before load = Except.ok conn) :
    (conn.page_info.start_cursor = conn.edges.head?.map RelayConnectionEdge.cursor ∧
      conn.page_info.end_cursor = conn.edges.getLast?.map RelayConnectionEdge.cursor ∧
      (conn.page_info.start_cursor = none ↔ conn.edges = []) ∧
      (conn.page_info.end_cursor = none ↔ conn.edges = [])) ∧
    ((@RelayConnection.empty Node).page_info.start_cursor = none ∧
      (@RelayConnection.empty Node).page_info.end_cursor = none ∧
      (@RelayConnection.empty Node).edges = []) ∧
    (∀ (first0 last0 : Option Int) (after0 before0 : Option String)
        (conn0 : RelayConnection Node),
      RelayConnection.new inst first0 after0 last0 before0
          (fun _ _ _ => Except.ok ([] : List Node)) = Except.ok conn0 →
      conn0 = RelayConnection.empty) := by
  refine ⟨?_, ⟨rfl, rfl, rfl⟩, ?_⟩
  · obtain ⟨aC, bC, items, -, -, -, -, -, -, hconn⟩ := new_ok_inv h
    subst hconn
    refine ⟨rfl, rfl, ?_, ?_⟩
    · simp only [buildConn]
      rw [Option.map_eq_none', List.head?_eq_none_iff]
    · simp only [buildConn]
      rw [Option.map_eq_none', List.getLast?_eq_none_iff]
  · intro first0 last0 after0 before0 conn0 h0
    obtain ⟨aC, bC, items, -, -, hf, hl, hld, -, hconn⟩ := new_ok_inv h0
    have hitems : items = [] := by
      have := hld.symm
      cases this
      rfl
    subst hitems
    subst hconn
    exact buildConn_nil inst first0 last0 hf hl

/-- C5 as written is refuted: the validation error message in the code is
capitalized. At `first = -1` the call returns
`"Pagination argument must be positive"`, not the claimed literal
`"pagination argument must be positive"`. -/
theorem negative_arg_message_counterexample :
    RelayConnection.new intInst (some (-1)) none none none
        (fun _ _ _ => Except.ok ([] : List Int)) ≠
      Except.error "pagination argument must be positive" ∧
    RelayConnection.new intInst (some (-1)) none none none
        (fun _ _ _ => Except.ok ([] : List Int)) =
      Except.error "Pagination argument must be positive" := by
  have h : RelayConnection.new intInst (some (-1)) none none none
      (fun _ _ _ => Except.ok ([] : List Int)) =
      Except.error "Pagination argument must be positive" := rfl
  refine ⟨?_, h⟩
  rw [h]
  intro hc
  exact absurd (Except.error.inj hc) (by decide)

/-- C5 (amended): a negative `first` or `last` with successfully parsed
cursor strings makes `new` return the error whose message is literally
`"Pagination argument must be positive"`, for every loader (so the loader is
never invoked and no connection is produced). -/
theorem new_negative_arg_spec {Node Cursor : Type} (inst : RelayConnectionNode Node Cursor)
    (first last : Option Int) (after before : Option String) (aC bC : Option Cursor)
    (hA : optTranspose (after.map inst.cursorFromStr) = Except.ok aC)
    (hB : optTranspose (before.map inst.cursorFromStr) = Except.ok bC)
    (hneg : (∃ x ∈ first, x < 0) ∨ (∃ x ∈ last, x < 0)) :
    ∀ load, RelayConnection.new inst first after last before load =
      Except.error "Pagination argument must be positive" :=
  fun load => new_validation_err inst first last after before aC bC load hA hB hneg

/-- C6: when the `after` string fails to parse, or `after` parses and the
`before` string fails to parse, `new` returns the error carrying that parse
failure's description, for every loader (so the loader is never invoked). -/
theorem new_decode_error_spec {Node Cursor : Type} (inst : RelayConnectionNode Node Cursor)
    (first last : Option Int) (after before : Option String) :
    (∀ e, optTranspose (after.map inst.cursorFromStr) = Except.error e →
      ∀ load, RelayConnection.new inst first after last before load = Except.error e) ∧
    (∀ (aC : Option Cursor) e,
      optTranspose (after.map inst.cursorFromStr) = Except.ok aC →
      optTranspose (before.map inst.cursorFromStr) = Except.error e →
      ∀ load, RelayConnection.new inst first after last before load = Except.error e) :=
  ⟨fun e hA load => new_after_err inst first last after before e load hA,
   fun aC e hA hB load => new_before_err inst first last after before aC e load hA hB⟩

/-- C7: when cursor decoding and validation succeed, the result of `new` is a
function only of the loader's value at the single argument triple
`(afterCursor, beforeCursor, first.map (+1))` — the decoded cursors and the
limit hint `first + 1` (absent when `first` is absent) — and a loader failure
is returned to the caller unchanged. -/
theorem new_loader_contract {Node Cursor : Type} (inst : RelayConnectionNode Node Cursor)
    (first last : Option Int) (after before : Option String) (aC bC : Option Cursor)
    (hA : optTranspose (after.map inst.cursorFromStr) = Except.ok aC)
    (hB : optTranspose (before.map inst.cursorFromStr) = Except.ok bC)
    (hf : ∀ f ∈ first, 0 ≤ f) (hl : ∀ l ∈ last, 0 ≤ l) :
    (∀ load1 load2 : Option Cursor → Option Cursor → Option Int → Except String (List Node),
      load1 aC bC (first.map (fun l => l + 1)) = load2 aC bC (first.map (fun l => l + 1)) →
      RelayConnection.new inst first after last before load1 =
        RelayConnection.new inst first after last before load2) ∧
    (∀ (load : Option Cursor → Option Cursor → Option Int → Except String (List Node)) e,
      load aC bC (first.map (fun l => l + 1)) = Except.error e →
      RelayConnection.new inst first after last before load = Except.error e) := by
  constructor
  · intro load1 load2 h12
    rw [RelayConnection.new, RelayConnection.new]
    simp only [bind, Except.bind, hA, hB, transpose_leq_zero_ok hf,
      transpose_leq_zero_ok hl]
    rw [h12]
  · intro load e he
    rw [RelayConnection.new]
    simp only [bind, Except.bind, hA, hB, transpose_leq_zero_ok hf,
      transpose_leq_zero_ok hl, he]

/-- C8: `RelayConnection.empty` is the connection with no edges, both page
flags false and both cursors `none`, and a `new` call whose loader returns
zero items (with parsed cursors and validated bounds) produces exactly the
same value, so the two are indistinguishable. -/
theorem empty_connection_spec {Node Cursor : Type} (inst : RelayConnectionNode Node Cursor)
    (first last : Option Int) (after before : Option String) (aC bC : Option Cursor)
    (hA : optTranspose (after.map inst.cursorFromStr) = Except.ok aC)
    (hB : optTranspose (before.map inst.cursorFromStr) = Except.ok bC)
    (hf : ∀ f ∈ first, 0 ≤ f ∧ f < 2 ^ 31) (hl : ∀ l ∈ last, 0 ≤ l) :
    (@RelayConnection.empty Node) =
      RelayConnection.mk [] (RelayConnectionPageInfo.mk false false none none) ∧
    RelayConnection.new inst first after last before
        (fun _ _ _ => Except.ok ([] : List Node)) =
      Except.ok (@RelayConnection.empty Node) := by
  refine ⟨rfl, ?_⟩
  have heval := new_eval inst first last after before aC bC
    (fun _ _ _ => Except.ok ([] : List Node)) [] hA hB
    (fun f hf0 => ⟨(hf f hf0).1, by have := (hf f hf0).2; omega⟩) hl rfl
    (by rw [List.length_nil]; omega)
  rw [heval, buildConn_nil inst first last (fun f hf0 => (hf f hf0).1) hl]

/-- C9 (implicit): cursor decoding takes precedence over argument validation —
when the `after` (or, `after` parsing, the `before`) string fails to parse
while `first` or `last` is negative, the returned error is the cursor decode
error, for every loader. -/
theorem decode_precedence_spec {Node Cursor : Type} (inst : RelayConnectionNode Node Cursor)
    (first last : Option Int) (after before : Option String)
    (hneg : (∃ x ∈ first, x < 0) ∨ (∃ x ∈ last, x < 0)) :
    (∀ e, optTranspose (after.map inst.cursorFromStr) = Except.error e →
      ∀ load, RelayConnection.new inst first after last before load = Except.error e) ∧
    (∀ (aC : Option Cursor) e,
      optTranspose (after.map inst.cursorFromStr) = Except.ok aC →
      optTranspose (before.map inst.cursorFromStr) = Except.error e →
      ∀ load, RelayConnection.new inst first after last before load = Except.error e) :=
  ⟨fun e hA load => new_after_err inst first last after before e load hA,
   fun aC e hA hB load => new_before_err inst first last after before aC e load hA hB⟩

/-- C10 (implicit): once the candidate-sequence length has been converted to
`i64` successfully and `first`/`last` (which arrive as `i32` values) have
passed the non-negativity check, the two remaining conversions in the
windowing step — of the effective take count `first.getD edges_len` and of
the skip count `max 0 (min edges_len first - last)` — cannot fail, and the
whole call succeeds. -/
theorem conversion_safety_spec {Node Cursor : Type} (inst : RelayConnectionNode Node Cursor)
    (first last : Option Int) (items : List Node) (n : Int)
    (hconv : usize_to_i64 items.length = Except.ok n)
    (hf : ∀ f ∈ first, 0 ≤ f ∧ f < 2 ^ 31) (hl : ∀ l ∈ last, 0 ≤ l ∧ l < 2 ^ 31) :
    i64_to_usize (first.getD n) = Except.ok (first.getD n).toNat ∧
    i64_to_usize (max 0 (min n (first.getD n) - last.getD n)) =
      Except.ok (max 0 (min n (first.getD n) - last.getD n)).toNat ∧
    ∃ conn, RelayConnection.new inst first none last none
      (fun _ _ _ => Except.ok items) = Except.ok conn := by
  obtain ⟨hn, hlen⟩ := usize_to_i64_inv hconv
  subst hn
  have hF0 : 0 ≤ first.getD (items.length : Int) := by
    cases first with
    | none => rw [Option.getD_none]; omega
    | some f => rw [Option.getD_some]; exact (hf f rfl).1
  have hF1 : first.getD (items.length : Int) < 2 ^ 64 := by
    cases first with
    | none => rw [Option.getD_none]; omega
    | some f => rw [Option.getD_some]; have := (hf f rfl).2; omega
  have hS1 : max 0 (min (items.length : Int) (first.getD (items.length : Int)) -
      last.getD (items.length : Int)) < 2 ^ 64 := by
    cases last with
    | none => rw [Option.getD_none]; omega
    | some l => rw [Option.getD_some]; have := (hl l rfl).1; omega
  refine ⟨i64_to_usize_ok hF0 hF1, i64_to_usize_ok (le_max_left 0 _) hS1, ?_⟩
  exact ⟨buildConn inst first last items,
    new_eval inst first last none none none none (fun _ _ _ => Except.ok items) items
      rfl rfl (fun f hf0 => ⟨(hf f hf0).1, by have := (hf f hf0).2; omega⟩)
      (fun l hl0 => (hl l hl0).1) rfl hlen⟩

/-! ### Witnesses: the claim theorems applied at concrete inputs -/

/-- Witness for C1 at `first = 3`, `last = 1`, five candidate items. -/
theorem new_window_spec_witness :
    ∃ conn,
      RelayConnection.new intInst (some 3) none (some 1) none
          (fun _ _ _ => Except.ok [(1 : Int), 2, 3, 4, 5]) = Except.ok conn ∧
      conn.edges.map RelayConnectionEdge.node =
        ([(1 : Int), 2, 3, 4, 5].take (min [(1 : Int), 2, 3, 4, 5].length
            (((some (3 : Int)).map Int.toNat).getD [(1 : Int), 2, 3, 4, 5].length))).drop
          (min [(1 : Int), 2, 3, 4, 5].length
              (((some (3 : Int)).map Int.toNat).getD [(1 : Int), 2, 3, 4, 5].length) -
            ((some (1 : Int)).map Int.toNat).getD [(1 : Int), 2, 3, 4, 5].length) ∧
      (∀ f l, some (3 : Int) = some f → some (1 : Int) = some l →
        conn.edges.map RelayConnectionEdge.node =
          ([(1 : Int), 2, 3, 4, 5].take f.toNat).drop
            (([(1 : Int), 2, 3, 4, 5].take f.toNat).length -
              min l.toNat (min [(1 : Int), 2, 3, 4, 5].length f.toNat))) :=
  new_window_spec intInst (some 3) (some 1) [1, 2, 3, 4, 5]
    (by decide) (by decide) (by decide)

/-- Witness for C2 at `first = 3`, five candidate items. -/
theorem new_first_only_spec_witness :
    (∃ conn,
      RelayConnection.new intInst (some 3) none none none
          (fun _ _ _ => Except.ok [(10 : Int), 20, 30, 40, 50]) = Except.ok conn ∧
      conn.edges.map RelayConnectionEdge.node =
        [(10 : Int), 20, 30, 40, 50].take (3 : Int).toNat ∧
      conn.edges.length = min [(10 : Int), 20, 30, 40, 50].length (3 : Int).toNat ∧
      conn.page_info.has_next_page =
        decide (([(10 : Int), 20, 30, 40, 50].length : Int) > 3) ∧
      conn.page_info.has_previous_page = false) ∧
    (∀ (after before : Option String) (last : Option Int)
        (load : Option Int → Option Int → Option Int → Except String (List Int))
        (conn : RelayConnection Int),
      RelayConnection.new intInst none after last before load = Except.ok conn →
      conn.page_info.has_next_page = false) :=
  new_first_only_spec intInst 3 [10, 20, 30, 40, 50] (by decide) (by decide)

/-- Witness for C3 at `last = 2`, five candidate items. -/
theorem new_last_only_spec_witness :
    ∃ conn,
      RelayConnection.new intInst none none (some 2) none
          (fun _ _ _ => Except.ok [(1 : Int), 2, 3, 4, 5]) = Except.ok conn ∧
      conn.edges.map RelayConnectionEdge.node =
        [(1 : Int), 2, 3, 4, 5].drop ([(1 : Int), 2, 3, 4, 5].length -
          min [(1 : Int), 2, 3, 4, 5].length (2 : Int).toNat) ∧
      conn.edges.length = min [(1 : Int), 2, 3, 4, 5].length (2 : Int).toNat ∧
      conn.page_info.has_previous_page =
        decide (([(1 : Int), 2, 3, 4, 5].length : Int) > 2) ∧
      conn.page_info.has_next_page = false :=
  new_last_only_spec intInst 2 [1, 2, 3, 4, 5] (by decide) (by decide)

/-- Witness for C4 at a successful call with `first = 2` over three items. -/
theorem conn_cursor_invariants_witness :
    ((RelayConnection.mk
        [RelayConnectionEdge.mk (7 : Int) "7", RelayConnectionEdge.mk 8 "8"]
        (RelayConnectionPageInfo.mk false true (some "7") (some "8"))).page_info.start_cursor =
        (RelayConnection.mk
          [RelayConnectionEdge.mk (7 : Int) "7", RelayConnectionEdge.mk 8 "8"]
          (RelayConnectionPageInfo.mk false true (some "7")
            (some "8"))).edges.head?.map RelayConnectionEdge.cursor ∧
      (RelayConnection.mk
        [RelayConnectionEdge.mk (7 : Int) "7", RelayConnectionEdge.mk 8 "8"]
        (RelayConnectionPageInfo.mk false true (some "7") (some "8"))).page_info.end_cursor =
        (RelayConnection.mk
          [RelayConnectionEdge.mk (7 : Int) "7", RelayConnectionEdge.mk 8 "8"]
          (RelayConnectionPageInfo.mk false true (some "7")
            (some "8"))).edges.getLast?.map RelayConnectionEdge.cursor ∧
      ((RelayConnection.mk
        [RelayConnectionEdge.mk (7 : Int) "7", RelayConnectionEdge.mk 8 "8"]
        (RelayConnectionPageInfo.mk false true (some "7") (some "8"))).page_info.start_cursor =
          none ↔
        (RelayConnection.mk
          [RelayConnectionEdge.mk (7 : Int) "7", RelayConnectionEdge.mk 8 "8"]
          (RelayConnectionPageInfo.mk false true (some "7") (some "8"))).edges = []) ∧
      ((RelayConnection.mk
        [RelayConnectionEdge.mk (7 : Int) "7", RelayConnectionEdge.mk 8 "8"]
        (RelayConnectionPageInfo.mk false true (some "7") (some "8"))).page_info.end_cursor =
          none ↔
        (RelayConnection.mk
          [RelayConnectionEdge.mk (7 : Int) "7", RelayConnectionEdge.mk 8 "8"]
          (RelayConnectionPageInfo.mk false true (some "7") (some "8"))).edges = [])) ∧
    ((@RelayConnection.empty Int).page_info.start_cursor = none ∧
      (@RelayConnection.empty Int).page_info.end_cursor = none ∧
      (@RelayConnection.empty Int).edges = []) ∧
    (∀ (first0 last0 : Option Int) (after0 before0 : Option String)
        (conn0 : RelayConnection Int),
      RelayConnection.new intInst first0 after0 last0 before0
          (fun _ _ _ => Except.ok ([] : List Int)) = Except.ok conn0 →
      conn0 = RelayConnection.empty) :=
  conn_cursor_invariants intInst (some 2) none none none
    (fun _ _ _ => Except.ok [(7 : Int), 8, 9])
    (RelayConnection.mk
      [RelayConnectionEdge.mk (7 : Int) "7", RelayConnectionEdge.mk 8 "8"]
      (RelayConnectionPageInfo.mk false true (some "7") (some "8"))) rfl

/-- Witness for C5 (amended) at `first = -1`. -/
theorem new_negative_arg_spec_witness :
    RelayConnection.new intInst (some (-1)) none none none
        (fun _ _ _ => Except.ok ([] : List Int)) =
      Except.error "Pagination argument must be positive" :=
  new_negative_arg_spec intInst (some (-1)) none none none none none rfl rfl
    (Or.inl ⟨-1, rfl, by decide⟩) (fun _ _ _ => Except.ok ([] : List Int))

/-- Witness for C6 at a malformed `after` string. -/
theorem new_decode_error_spec_witness :
    RelayConnection.new intInst none (some "zz") none none
        (fun _ _ _ => Except.ok ([] : List Int)) =
      Except.error ("invalid cursor: zz") :=
  (new_decode_error_spec intInst none none (some "zz") none).1
    ("invalid cursor: zz") rfl (fun _ _ _ => Except.ok ([] : List Int))

/-- Witness for C7: a failing loader's error is propagated unchanged. -/
theorem new_loader_contract_witness :
    RelayConnection.new intInst (some 2) none none none
        (fun _ _ _ => Except.error "backend failure") =
      Except.error "backend failure" :=
  (new_loader_contract intInst (some 2) none none none none none rfl rfl
      (by decide) (by decide)).2
    (fun _ _ _ => Except.error "backend failure") "backend failure" rfl

/-- Witness for C8 at `first = 4`, `last = 2`, both cursor strings present. -/
theorem empty_connection_spec_witness :
    (@RelayConnection.empty Int) =
      RelayConnection.mk [] (RelayConnectionPageInfo.mk false false none none) ∧
    RelayConnection.new intInst (some 4) (some "0") (some 2) (some "0")
        (fun _ _ _ => Except.ok ([] : List Int)) =
      Except.ok (@RelayConnection.empty Int) :=
  empty_connection_spec intInst (some 4) (some 2) (some "0") (some "0")
    (some 0) (some 0) rfl rfl (by decide) (by decide)

/-- Witness for C9: malformed `after` together with negative `first` yields
the decode error. -/
theorem decode_precedence_spec_witness :
    RelayConnection.new intInst (some (-5)) (some "bad") none none
        (fun _ _ _ => Except.ok ([] : List Int)) =
      Except.error ("invalid cursor: bad") :=
  (decode_precedence_spec intInst (some (-5)) none (some "bad") none
      (Or.inl ⟨-5, rfl, by decide⟩)).1
    ("invalid cursor: bad") rfl (fun _ _ _ => Except.ok ([] : List Int))

/-- Witness for C10 at `first = 2`, `last = 1`, three candidate items. -/
theorem conversion_safety_spec_witness :
    i64_to_usize ((some (2 : Int)).getD 3) =
      Except.ok ((some (2 : Int)).getD 3).toNat ∧
    i64_to_usize (max 0 (min 3 ((some (2 : Int)).getD 3) -
        (some (1 : Int)).getD 3)) =
      Except.ok (max 0 (min 3 ((some (2 : Int)).getD 3) -
        (some (1 : Int)).getD 3)).toNat ∧
    ∃ conn, RelayConnection.new intInst (some 2) none (some 1) none
      (fun _ _ _ => Except.ok [(1 : Int), 2, 3]) = Except.ok conn :=
  conversion_safety_spec intInst (some 2) (some 1) [1, 2, 3] 3 rfl
    (by decide) (by decide)

end JuniperRelay
